import Mathlib

/-!
Verification of the `gorepo` repository (and its vendored `ghrepo` package)
against its natural-language specification.

The development shallowly embeds the Go source:
pure functions become Lean functions, effectful code is modelled by explicit
state passing, external collaborators (the GitHub HTTP API, the git reference
store, the zip encoder, the SHA-256 accumulator, the process runner) are
passed in as oracle values or function parameters, and Go panics and errors
are made explicit with `Except`.
-/

namespace Gorepo

/-! ## Go runtime model: panics, pointers, reflection

Small models of the parts of the Go runtime that the source relies on:
nil-pointer dereference and the `reflect` package's `Value.NumField`,
which panics unless the value's kind is `Struct`. -/

/-- Run-time panics that the embedded code can raise. -/
inductive GoPanic where
  /-- `reflect.Value.NumField` called on a value whose kind is not `Struct`. -/
  | numFieldOnNonStruct
  /-- dereference of a nil pointer (`*p` with `p == nil`). -/
  | nilPointerDeref
deriving DecidableEq, Repr

/-- Model of dereferencing a Go pointer (`*p`): a nil pointer panics. -/
def deref {α : Type} : Option α → Except GoPanic α
  | some a => .ok a
  | none => .error .nilPointerDeref

/-- Field values that occur in the modelled fields of `github.Repository`. -/
inductive GoVal where
  | str (s : String)
  | strs (l : List String)
  | boolean (b : Bool)
deriving DecidableEq, Repr

/-- Model of `*github.Repository` as cached by the service: the fields the
source reads or edits (go-github represents each as a nilable pointer or
slice, modelled with `Option`), standing in for the full remote record. -/
structure GhRepo where
  name : Option String
  description : Option String
  topics : Option (List String)
  archived : Option Bool
deriving DecidableEq, Repr

/-- The fields of the `github.Repository` struct as reflection sees them,
in declaration order; `none` models a nil pointer/slice field. -/
def ghFields (g : GhRepo) : List (Option GoVal) :=
  [g.name.map .str, g.description.map .str, g.topics.map .strs, g.archived.map .boolean]

/-- Kinds of `reflect.Value` relevant here. -/
inductive GoKind where
  | ptrKind
  | structKind
deriving DecidableEq, Repr

/-- Model of a `reflect.Value`. -/
structure RValue where
  kind : GoKind
  fields : List (Option GoVal)
deriving DecidableEq, Repr

/-- `reflect.ValueOf(p)` where `p : *github.Repository`: the resulting
`reflect.Value` has kind pointer (`ValueOf` does not dereference). -/
def valueOf (g : GhRepo) : RValue := ⟨.ptrKind, ghFields g⟩

/-- `reflect.Value.NumField`: panics unless the kind is `Struct`. -/
def numField (v : RValue) : Except GoPanic Nat :=
  match v.kind with
  | .structKind => .ok v.fields.length
  | .ptrKind => .error .numFieldOnNonStruct

/-- The field-comparison loop of `hasChanges` (repo.go 244-260): skip nil
update fields; an update value where the initial is nil counts as a change;
otherwise compare the dereferenced values for deep equality. -/
def fieldsDiffer : List (Option GoVal) → List (Option GoVal) → Bool
  | some u :: us, some i :: ivs => if u = i then fieldsDiffer us ivs else true
  | some _ :: _, none :: _ => true
  | none :: us, _ :: ivs => fieldsDiffer us ivs
  | _, _ => false

/-- `hasChanges` (repo.go 240-263): builds `reflect.Value`s of the two
`*github.Repository` pointers and calls `NumField` on the update's value.
Since `reflect.ValueOf` was given a pointer (not a struct), `NumField`
panics before any field is compared. -/
def hasChanges (initial update : GhRepo) : Except GoPanic Bool :=
  let uv := valueOf update
  let iv := valueOf initial
  match numField uv with
  | .error p => .error p
  | .ok _ => .ok (fieldsDiffer uv.fields iv.fields)

/-- Possible outcomes of `Edit`: a Go panic escaping the call, an error
returned by the live edit call, or success carrying the new cached record. -/
inductive EditResult where
  | panicked (p : GoPanic)
  | failed (e : String)
  | ok (newGithub : GhRepo)
deriving DecidableEq, Repr

/-- `Edit` (repo.go 222-238) under the repository lock: if `hasChanges`
reports no change return success leaving the cache unchanged; otherwise issue
the live edit (modelled by the oracle `apiResp`) and replace the cached
record with the server's response. -/
def Edit (cached update : GhRepo) (apiResp : Except String GhRepo) : EditResult :=
  match hasChanges cached update with
  | .error p => .panicked p
  | .ok false => .ok cached
  | .ok true =>
    match apiResp with
    | .error e => .failed e
    | .ok repo => .ok repo

/-- `SetDescription` (repo.go 266-268): `Edit` with a sparse update having
only the description set. -/
def SetDescription (cached : GhRepo) (apiResp : Except String GhRepo) (descr : String) :
    EditResult :=
  Edit cached ⟨none, some descr, none, none⟩ apiResp

/-- `SetTopics` (repo.go 203-219) under the repository lock: if the cached
topics already equal the requested list (`slices.Equal`, which identifies a
nil slice with an empty one), return success without a live call; otherwise
call `ReplaceAllTopics` (oracle `apiResp`) and store the returned list. -/
def SetTopics (g : GhRepo) (apiResp : Except String (List String)) (topics : List String) :
    Except String GhRepo :=
  if g.topics.getD [] = topics then .ok g
  else
    match apiResp with
    | .error e => .error e
    | .ok updated => .ok { g with topics := some updated }

/-- `Topics` (repo.go 289-294): returns the cached topics slice (a nil slice
reads as the empty list). -/
def Topics (g : GhRepo) : List String := g.topics.getD []

/-- `Description` (repo.go 277-286): nil-guarded read of the cached
description, defaulting to the empty string. -/
def Description (g : GhRepo) : String := g.description.getD ""

/-- `Archived` (repo.go 297-302): dereferences the cached `Archived` pointer
with no nil guard, so a record lacking the field panics. -/
def Archived (g : GhRepo) : Except GoPanic Bool := deref g.archived

/-! ## Git reference model and default-branch resolution

`getDefaultBranch` (repo.go 109-136) reads the repository's reference store
through go-git. The store is modelled as an oracle: `reference` is the
resolved lookup `r.Reference(name, true)` and `head` is `r.Head()`. -/

/-- Errors surfacing from reference lookups, plus the algorithm's own
"no default branch found" error value. -/
inductive GitErr where
  /-- `plumbing.ErrReferenceNotFound`. -/
  | refNotFound
  /-- `errNoDefaultBranch` ("no default branch found"). -/
  | noDefaultBranch
  /-- any other error, with an identifying tag. -/
  | other (tag : Nat)
deriving DecidableEq, Repr

/-- `plumbing.ReferenceType`. -/
inductive RefType where
  | symbolic
  | hashRef
  | invalid
deriving DecidableEq, Repr

/-- Model of a `*plumbing.Reference`: its type, its name, and (for symbolic
references) its target. -/
structure RefM where
  type : RefType
  name : String
  target : String
deriving DecidableEq, Repr

/-- Model of the repository's reference state: `reference name` is the
resolved lookup `r.Reference(name, true)`, `head` is `r.Head()`. -/
structure GitRepoRefs where
  reference : String → Except GitErr RefM
  head : Except GitErr RefM

/-- `refString` (repo.go 138-147): symbolic references yield their target,
hash references their name, anything else the empty string. -/
def refString (ref : RefM) : String :=
  match ref.type with
  | .symbolic => ref.target
  | .hashRef => ref.name
  | .invalid => ""

/-- Cutting a leading character sequence from another, structurally:
`some` of the remainder when the first list leads the second, else `none`. -/
def listCutPre : List Char → List Char → Option (List Char)
  | [], s => some s
  | _ :: _, [] => none
  | p :: ps, c :: cs => if p = c then listCutPre ps cs else none

/-- `strings.CutPrefix(s, pre)`: `some` of the remainder when `pre` leads
`s`, else `none` (the `ok` flag of the Go original). -/
def cutPre (s pre : String) : Option String :=
  (listCutPre pre.toList s.toList).map fun cs => ⟨cs⟩

/-- `plumbing.NewBranchReferenceName`. -/
def branchRefName (short : String) : String := "refs/heads/" ++ short

/-- `plumbing.NewRemoteReferenceName("origin", "HEAD")`. -/
def originHeadRef : String := "refs/remotes/origin/HEAD"

/-- The remote namespace the short branch name is cut from (repo.go 112). -/
def originNs : String := "refs/remotes/origin/"

/-- `plumbing.Main`. -/
def mainRef : String := branchRefName "main"

/-- `plumbing.Master`. -/
def masterRef : String := branchRefName "master"

/-- The probe loop of `getDefaultBranch` (repo.go 127-133): try each
candidate in order, return the first whose lookup succeeds; a lookup error
other than "reference not found" is fatal; an exhausted list yields
`errNoDefaultBranch` (repo.go 135). -/
def probeBranches (r : GitRepoRefs) : List String → Except GitErr String
  | [] => .error .noDefaultBranch
  | c :: rest =>
    match r.reference c with
    | .ok _ => .ok c
    | .error e => if e = .refNotFound then probeBranches r rest else .error e

/-- Steps 2-4 of `getDefaultBranch` (repo.go 120-135), reached when the
remote-tracking HEAD gave no branch: a missing HEAD means a fresh repository,
assume "main"; any other HEAD error is fatal; otherwise probe "main" then
"master". -/
def defaultBranchAfterRemote (r : GitRepoRefs) : Except GitErr String :=
  match r.head with
  | .error e =>
    if e = .refNotFound then .ok mainRef else .error e
  | .ok _ => probeBranches r [mainRef, masterRef]

/-- `getDefaultBranch` (repo.go 109-136): first consult the resolved
`origin/HEAD`; if it names a branch under `refs/remotes/origin/`, return that
branch's local reference name; a lookup error other than "reference not
found" is fatal; otherwise fall through to the HEAD check and probes. -/
def getDefaultBranch (r : GitRepoRefs) : Except GitErr String :=
  match r.reference originHeadRef with
  | .ok ref =>
    match cutPre (refString ref) originNs with
    | some short => .ok (branchRefName short)
    | none => defaultBranchAfterRemote r
  | .error e =>
    if e = .refNotFound then defaultBranchAfterRemote r else .error e

/-- The remote-tracking step of `getDefaultBranch` yielded no branch: either
`origin/HEAD` was not found, or it resolved outside `refs/remotes/origin/`. -/
def remoteStepFellThrough (r : GitRepoRefs) : Prop :=
  r.reference originHeadRef = .error .refNotFound ∨
  ∃ ref, r.reference originHeadRef = .ok ref ∧ cutPre (refString ref) originNs = none

/-! ## Service-level metadata cache and bulk prefetch

`Service.repos` is `map[string]map[string]*github.Repository`, modelled as a
function from owner to an optional inner map (`none` models a missing outer
entry). The paginated list calls are oracles `Nat → Except _ _` from page
number to the page's records and the `NextPage` value; the `for page > 0`
loop is given explicit fuel, with `none` modelling a still-running loop. -/

/-- The two-level cache `map[string]map[string]*github.Repository`. -/
def GhCache : Type := String → Option (String → Option GhRepo)

/-- The empty cache. -/
def emptyCache : GhCache := fun _ => none

/-- `Repository.GetName()` of go-github: empty string when `Name` is nil. -/
def getName (g : GhRepo) : String := g.name.getD ""

/-- `addRepos` (service.go 205-220): no-op on an empty page; otherwise ensure
the owner's inner map exists and insert every record keyed by its name,
later records overwriting earlier ones of the same name. -/
def addRepos (c : GhCache) (owner : String) (repos : List GhRepo) : GhCache :=
  if repos.length = 0 then c
  else
    let inner := (c owner).getD (fun _ => none)
    let inner' := repos.foldl (fun m r => fun n => if n = getName r then some r else m n) inner
    fun o => if o = owner then some inner' else c o

/-- `getRepo` (service.go 222-231): look up the owner's inner map, then the
name; a missing owner yields nil. -/
def getRepo (c : GhCache) (owner name : String) : Option GhRepo :=
  match c owner with
  | some m => m name
  | none => none

/-- A page returned by a GitHub list call: the records and `resp.NextPage`
(0 when there is no further page). -/
abbrev ListPage := List GhRepo × Nat

/-- The loop of `PrefetchUserRepositories` (service.go 167-183). The source
lists pages for `user` but passes the identifier `org` — not the `user`
parameter — to `addRepos`; that outer-scope identifier is modelled by the
parameter `orgOuter`. A list error is returned at once, leaving the cache as
already accumulated; a fetched page is merged (under `orgOuter`) before the
next page is requested; `none` models a loop that is still running after
`fuel` iterations. -/
def prefetchUserGo (orgOuter user : String) (listByUser : String → Nat → Except String ListPage) :
    Nat → Nat → GhCache → Option (Except String Unit × GhCache)
  | 0, _, _ => none
  | fuel + 1, page, c =>
    if page > 0 then
      match listByUser user page with
      | .error e => some (.error e, c)
      | .ok (repos, nextPage) =>
        prefetchUserGo orgOuter user listByUser fuel nextPage (addRepos c orgOuter repos)
    else some (.ok (), c)

/-- `PrefetchUserRepositories` (service.go 167-183): run the page loop
starting from page 1. -/
def PrefetchUserRepositories (orgOuter user : String)
    (listByUser : String → Nat → Except String ListPage) (fuel : Nat) (c : GhCache) :
    Option (Except String Unit × GhCache) :=
  prefetchUserGo orgOuter user listByUser fuel 1 c

/-- The loop of `PrefetchOrgRepositories` (service.go 187-203): identical
shape, and here the records are cached under the `org` the pages were
listed for. -/
def prefetchOrgGo (org : String) (listByOrg : String → Nat → Except String ListPage) :
    Nat → Nat → GhCache → Option (Except String Unit × GhCache)
  | 0, _, _ => none
  | fuel + 1, page, c =>
    if page > 0 then
      match listByOrg org page with
      | .error e => some (.error e, c)
      | .ok (repos, nextPage) =>
        prefetchOrgGo org listByOrg fuel nextPage (addRepos c org repos)
    else some (.ok (), c)

/-- `PrefetchOrgRepositories` (service.go 187-203): run the page loop
starting from page 1. -/
def PrefetchOrgRepositories (org : String)
    (listByOrg : String → Nat → Except String ListPage) (fuel : Nat) (c : GhCache) :
    Option (Except String Unit × GhCache) :=
  prefetchOrgGo org listByOrg fuel 1 c

/-! ## Release-asset publishing (release.go)

Bytes are `Nat` (each < 256 where it matters). The SHA-256 accumulator and
the zip encoder live in external libraries, so they are parameters of the
model: `hash` maps a byte sequence to its 32-byte digest, `zipEnc` maps an
entry name and the entry's bytes to the bytes of the finished archive file.
The HTTP layer is an oracle: request construction and execution may fail,
and a performed request yields a response with a status code and body. -/

/-- `lenChecksum` (release.go 22): declared size of the checksum asset. -/
def lenChecksum : Int := 64

/-- An HTTP response as seen by `uploadReleaseAsset`: `resp.StatusCode` and
the bytes `io.ReadAll(resp.Body)` would return. -/
structure GoResponse where
  statusCode : Nat
  body : String
deriving DecidableEq, Repr

/-- Model of `net/http.StatusText` for the codes exercised here (the real
table is larger; unknown codes yield the empty string, as in Go). -/
def statusText (code : Nat) : String :=
  if code = 200 then "OK"
  else if code = 201 then "Created"
  else if code = 202 then "Accepted"
  else if code = 204 then "No Content"
  else if code = 400 then "Bad Request"
  else if code = 401 then "Unauthorized"
  else if code = 403 then "Forbidden"
  else if code = 404 then "Not Found"
  else if code = 422 then "Unprocessable Entity"
  else if code = 500 then "Internal Server Error"
  else ""

/-- A release asset successfully created on the server: its name, the bytes
streamed to the server, and the size declared in the upload request. -/
structure AssetUpload where
  name : String
  content : List Nat
  declaredSize : Int
deriving DecidableEq, Repr

/-- `uploadReleaseAsset` (release.go 157-184): build the upload request
(oracle `newReq`), perform it (oracle `doResp`); a response status other than
`http.StatusCreated` (201) is an error whose message ends with the raw
response body; on 201 the created asset is returned. -/
def uploadReleaseAsset (newReq : Except String Unit) (doResp : Except String GoResponse)
    (assetName : String) (content : List Nat) (size : Int) : Except String AssetUpload :=
  match newReq with
  | .error e => .error ("creating upload request: " ++ e)
  | .ok _ =>
    match doResp with
    | .error e => .error ("performing upload request: " ++ e)
    | .ok resp =>
      if resp.statusCode = 201 then .ok ⟨assetName, content, size⟩
      else
        .error ("upload failed with status " ++ toString resp.statusCode ++ " "
          ++ statusText resp.statusCode ++ ": " ++ resp.body)

/-- Lowercase hex digit of a nibble, as in `encoding/hex` ("0123456789abcdef"). -/
def hexDigitChar (n : Nat) : Char :=
  if n < 10 then Char.ofNat (48 + n) else Char.ofNat (87 + n)

/-- The character stream of `hex.EncodeToString`: each byte becomes its high
then low nibble. -/
def hexChars : List Nat → List Char
  | [] => []
  | b :: bs => hexDigitChar (b / 16) :: hexDigitChar (b % 16) :: hexChars bs

/-- `hex.EncodeToString`: each byte becomes its high then low nibble in
lowercase hex. -/
def hexEncode (bs : List Nat) : String := ⟨hexChars bs⟩

/-- Whether a character is a lowercase hexadecimal digit. -/
def isLowerHexChar (c : Char) : Bool :=
  (48 ≤ c.toNat && c.toNat ≤ 57) || (97 ≤ c.toNat && c.toNat ≤ 102)

/-- The bytes of an ASCII string (the checksum text is pure ASCII, where
UTF-8 bytes coincide with code points). -/
def strBytes (s : String) : List Nat := s.toList.map Char.toNat

/-- Error injection for the five fallible steps inside `zipBinary`
(release.go 107-149): `os.CreateTemp`, `zip.FileInfoHeader`,
`zw.CreateHeader`, `io.Copy`, and the explicit `zw.Close`. -/
structure ZipOracle where
  createTempErr : Option String
  fileInfoHeaderErr : Option String
  createHeaderErr : Option String
  copyErr : Option String
  closeErr : Option String
deriving DecidableEq, Repr

/-- Result of `zipBinary` together with the on-disk state of the temporary
file: `tmpExists` records whether the temp file created by `os.CreateTemp`
is still present when the function returns. -/
structure ZipResult where
  res : Except String (List Nat)
  tmpExists : Bool
deriving Repr

/-- `zipBinary` (release.go 107-149): create the temp file, build the entry
header from the binary's file info, rewrite the entry name to
`<repo-name><suffix>`, write the entry with Deflate, close the writer. Each
error returns immediately; the deferred calls close the file and writer but
none of the error paths removes the temp file, so every failure after
`os.CreateTemp` succeeded leaves it on disk. On success the finished archive
bytes are `zipEnc (name ++ suffix) binBytes` and the file likewise still
exists (the caller is responsible for removing it). -/
def zipBinary (o : ZipOracle) (repoName suffix : String) (binBytes : List Nat)
    (zipEnc : String → List Nat → List Nat) : ZipResult :=
  match o.createTempErr with
  | some e => ⟨.error ("creating temp zip file: " ++ e), false⟩
  | none =>
    match o.fileInfoHeaderErr with
    | some e => ⟨.error ("creating zip header: " ++ e), true⟩
    | none =>
      match o.createHeaderErr with
      | some e => ⟨.error ("creating zip entry: " ++ e), true⟩
      | none =>
        match o.copyErr with
        | some e => ⟨.error ("writing to zip: " ++ e), true⟩
        | none =>
          match o.closeErr with
          | some e => ⟨.error ("closing zip writer: " ++ e), true⟩
          | none => ⟨.ok (zipEnc (repoName ++ suffix) binBytes), true⟩

/-- Oracle for one run of `UploadReleaseBinary`: the fallible opens/stat and
the HTTP layer of the two asset uploads. -/
structure PublishOracle where
  openErr : Option String
  zipO : ZipOracle
  openTmpErr : Option String
  statErr : Option String
  newReq1 : Except String Unit
  doResp1 : Except String GoResponse
  newReq2 : Except String Unit
  doResp2 : Except String GoResponse
deriving Repr

/-- Outcome of `UploadReleaseBinary`: the returned error or success, whether
the temporary archive file still exists on disk, and the assets created on
the server (in upload order). -/
structure PublishOut where
  result : Except String Unit
  tmpExists : Bool
  uploads : List AssetUpload
deriving Repr

/-- `%q` applied to the plain asset names used here. -/
def quoteStr (s : String) : String := "\"" ++ s ++ "\""

/-- The tail of `UploadReleaseBinary` (release.go 66-102), entered once
`zipBinary` has returned the temp archive's path: from here the deferred
`os.Remove(tmpPath)` is registered, so every exit removes the temp file. Open
and stat the temp file, upload the archive named `<binName>.zip` while
`io.TeeReader` folds its bytes into the digest (a successful upload has
streamed exactly the archive's bytes), then hex-encode the digest and upload
it as `<binName>_checksum_sha256.txt` with declared size `lenChecksum`. -/
def uploadAfterZip (hash : List Nat → List Nat) (binName : String) (zipBytes : List Nat)
    (o : PublishOracle) : PublishOut :=
  match o.openTmpErr with
  | some e => ⟨.error ("opening temporary zip: " ++ e), false, []⟩
  | none =>
    match o.statErr with
    | some e => ⟨.error ("stating temporary zip: " ++ e), false, []⟩
    | none =>
      match uploadReleaseAsset o.newReq1 o.doResp1 (binName ++ ".zip") zipBytes
          (zipBytes.length : Int) with
      | .error e => ⟨.error ("uploading " ++ quoteStr (binName ++ ".zip") ++ ": " ++ e),
          false, []⟩
      | .ok zipAsset =>
        match uploadReleaseAsset o.newReq2 o.doResp2 (binName ++ "_checksum_sha256.txt")
            (strBytes (hexEncode (hash zipBytes))) lenChecksum with
        | .error e =>
          ⟨.error ("uploading " ++ quoteStr (binName ++ "_checksum_sha256.txt") ++ ": " ++ e),
            false, [zipAsset]⟩
        | .ok csAsset => ⟨.ok (), false, [zipAsset, csAsset]⟩

/-- `UploadReleaseBinary` (release.go 49-103): open the binary, zip it to a
temp file (`defer os.Remove(tmpPath)` is registered only after `zipBinary`
succeeds, so a `zipBinary` failure leaves the on-disk state exactly as
`zipBinary` left it), then continue with `uploadAfterZip`. `binName` is
`info.Name()`. -/
def UploadReleaseBinary (hash : List Nat → List Nat) (zipEnc : String → List Nat → List Nat)
    (repoName binName suffix : String) (binBytes : List Nat) (o : PublishOracle) : PublishOut :=
  match o.openErr with
  | some e => ⟨.error ("opening file: " ++ e), false, []⟩
  | none =>
    match zipBinary o.zipO repoName suffix binBytes zipEnc with
    | ⟨.error e, tmpLeft⟩ => ⟨.error ("zipping binary: " ++ e), tmpLeft, []⟩
    | ⟨.ok zipBytes, _⟩ => uploadAfterZip hash binName zipBytes o

/-! ## External-command runners (repo.go of the `gorepo` package)

`ExecCommand` fails with a `ghrepo.ExecError` carrying the attempted command
and its trimmed combined output; a run of one of the wrappers is modelled by
the oracle value that `ExecCommand` returned. `errors.As` on an `ExecError`
always succeeds, so the designated-no-op checks reduce to comparing `Out`. -/

/-- `ghrepo.ExecError` (cmd and trimmed combined output; the wrapped cause
is irrelevant to the claims). -/
structure ExecErrM where
  cmd : String
  out : String
deriving DecidableEq, Repr

/-- The designated "no packages" output of `go vet` (repo.go 117). -/
def govetNoPackagesMsg : String := "go: warning: \"./...\" matched no packages\nno packages to vet"

/-- The designated "no go files to analyze" output of golangci-lint
(repo.go 131). -/
def golangciNoPackagesMsg : String :=
  "level=error msg=\"Running error: context loading failed: no go files to analyze: running `go mod tidy` may solve the problem\""

/-- `GoVet` (repo.go 115-127): on command failure, the designated
no-packages output is treated as success; any other failure is returned. -/
def GoVet (res : Except ExecErrM (List Nat)) : Option ExecErrM :=
  match res with
  | .ok _ => none
  | .error e => if e.out = govetNoPackagesMsg then none else some e

/-- `GolangCILint` (repo.go 129-139), transcribed as written: on command
failure the designated no-packages output returns nil, and the body of the
`if err != nil` block then falls through to the final `return nil` — there is
no `return err`, so every other failure is also dropped. -/
def GolangCILint (res : Except ExecErrM (List Nat)) : Option ExecErrM :=
  match res with
  | .ok _ => none
  | .error e =>
    if e.out = golangciNoPackagesMsg then
      none
    else
      none

/-! ## Concrete fixtures

Closed values used to evaluate the embedded operations at specific inputs. -/

/-- A remote record named "r1" with no other fields set. -/
def repoAlpha : GhRepo := ⟨some "r1", none, none, none⟩

/-- A remote record named "r2" with no other fields set. -/
def repoBeta : GhRepo := ⟨some "r2", none, none, none⟩

/-- A listing oracle with a single page holding `repoAlpha`. -/
def fetchOnePage : String → Nat → Except String ListPage :=
  fun _ page => if page = 1 then .ok ([repoAlpha], 0) else .error "unexpected page"

/-- A listing oracle whose first page holds `repoAlpha` and points at page 2,
which fails. -/
def fetchBoom : String → Nat → Except String ListPage :=
  fun _ page => if page = 1 then .ok ([repoAlpha], 2) else .error "boom"

/-- A reference store whose every resolved lookup yields a hash reference
sitting at `refs/remotes/origin/dev`, with a valid HEAD. -/
def refsRemoteDev : GitRepoRefs :=
  { reference := fun _ => .ok ⟨.hashRef, "refs/remotes/origin/dev", ""⟩,
    head := .ok ⟨.hashRef, mainRef, ""⟩ }

/-- A stand-in digest function with the right digest length: 32 zero bytes. -/
def hashZeros : List Nat → List Nat := fun _ => List.replicate 32 0

/-- A stand-in archive encoder: the archive bytes are the entry bytes. -/
def zipId : String → List Nat → List Nat := fun _ bs => bs

/-- A zip oracle where the `io.Copy` into the archive entry fails. -/
def zipCopyFails : ZipOracle := ⟨none, none, none, some "disk full", none⟩

/-- A zip oracle where every step succeeds. -/
def zipAllOk : ZipOracle := ⟨none, none, none, none, none⟩

/-- A publish oracle that fails inside `zipBinary` at the `io.Copy` step. -/
def leakOracle : PublishOracle :=
  ⟨none, zipCopyFails, none, none, .ok (), .ok ⟨201, ""⟩, .ok (), .ok ⟨201, ""⟩⟩

/-- A publish oracle where every step succeeds and both uploads get 201. -/
def okOracle : PublishOracle :=
  ⟨none, zipAllOk, none, none, .ok (), .ok ⟨201, ""⟩, .ok (), .ok ⟨201, ""⟩⟩

/-! ## Theorems -/

/-- C10: `Archived` dereferences the cached record's archived field without a
nil guard: with the field present it returns the stored value, and for every
repository whose cached record lacks the field the call panics with a
nil-pointer dereference instead of returning a default value. -/
theorem c10_archived_panics_on_missing_field (g : GhRepo) :
    (g.archived = none → Archived g = .error .nilPointerDeref) ∧
    (∀ b, g.archived = some b → Archived g = .ok b) := by
  refine ⟨fun h => ?_, fun b h => ?_⟩ <;> simp [Archived, deref, h]

/-- Witness for C10 at concrete records: a record lacking the archived field
panics, one carrying it returns the stored value. -/
theorem c10_archived_panics_on_missing_field_witness :
    Archived ⟨none, none, none, none⟩ = .error .nilPointerDeref ∧
    Archived ⟨none, none, none, some true⟩ = .ok true :=
  ⟨(c10_archived_panics_on_missing_field ⟨none, none, none, none⟩).1 rfl,
   (c10_archived_panics_on_missing_field ⟨none, none, none, some true⟩).2 true rfl⟩

/-- C9: contrary to the claim, `GolangCILint` propagates no error at all —
for every outcome of the external command, including failures whose output is
not the designated no-packages message, it returns nil (the `if err != nil`
block lacks a `return err`, unlike `GoVet` which does return the error). -/
theorem c9_golangcilint_swallows_every_error :
    (∀ res : Except ExecErrM (List Nat), GolangCILint res = none) ∧
    GoVet (.error ⟨"go vet ./...", "main.go:5:2: undeclared name"⟩) =
      some ⟨"go vet ./...", "main.go:5:2: undeclared name"⟩ := by
  constructor
  · intro res
    cases res with
    | ok _ => rfl
    | error e => simp [GolangCILint]
  · rfl

/-- C2: contrary to the claim, `Edit` never reaches the no-op path:
`hasChanges` calls `reflect.Value.NumField` on the `reflect.Value` of a
`*github.Repository` pointer (kind `Ptr`, not `Struct`), which panics on
every call — in particular for an update equal to the cached record — and
`SetDescription` panics the same way. -/
theorem c2_edit_always_panics :
    (∀ (cached update : GhRepo) (apiResp : Except String GhRepo),
      Edit cached update apiResp = .panicked .numFieldOnNonStruct) ∧
    (∀ (cached : GhRepo) (apiResp : Except String GhRepo) (descr : String),
      SetDescription cached apiResp descr = .panicked .numFieldOnNonStruct) :=
  ⟨fun _ _ _ => rfl, fun _ _ _ => rfl⟩

/-- C3: contrary to the claim, a successful `PrefetchUserRepositories` for
user "alice" does not key the fetched records under "alice": the source
passes the identifier `org` (here instantiated to "beta") to `addRepos`, so
the lookup for ("alice", "r1") misses while ("beta", "r1") hits. -/
theorem c3_user_prefetch_keyed_under_org :
    ∃ c : GhCache,
      PrefetchUserRepositories "beta" "alice" fetchOnePage 2 emptyCache = some (.ok (), c) ∧
      getRepo c "alice" "r1" = none ∧
      getRepo c "beta" "r1" = some repoAlpha := by
  refine ⟨addRepos emptyCache "beta" [repoAlpha], rfl, ?_, ?_⟩ <;> decide

/-- C8: a successful `SetTopics t` immediately followed by `Topics` returns
exactly `t`, element for element: when the cached list already equals `t` the
cache is untouched, and otherwise the cache takes the list returned by
`ReplaceAllTopics`, which by the remote interface contract (spec section 6,
`replaceTopics(owner,name,topics) -> topics`) is `t` itself on success. -/
theorem c8_set_topics_roundtrip (g : GhRepo) (apiResp : Except String (List String))
    (topics : List String) (g' : GhRepo)
    (hapi : ∀ us, apiResp = .ok us → us = topics)
    (hset : SetTopics g apiResp topics = .ok g') :
    Topics g' = topics := by
  unfold SetTopics at hset
  by_cases h : g.topics.getD [] = topics
  · simp only [h, if_pos rfl] at hset
    simp only [if_true] at hset
    cases hset
    simpa [Topics] using h
  · simp only [if_neg h] at hset
    cases apiResp with
    | error e => cases hset
    | ok us =>
      cases hset
      have := hapi us rfl
      simp [Topics, this]

/-- Witness for C8: starting from a record with nil topics, setting
["a", "b"] and reading the topics back yields ["a", "b"]. -/
theorem c8_set_topics_roundtrip_witness :
    Topics ⟨none, none, some ["a", "b"], none⟩ = ["a", "b"] :=
  c8_set_topics_roundtrip ⟨none, none, none, none⟩ (.ok ["a", "b"]) ["a", "b"]
    ⟨none, none, some ["a", "b"], none⟩
    (fun _ h => (Except.ok.inj h).symm) rfl

/-- C6: an asset upload whose HTTP request was built and performed succeeds
exactly when the response status is 201 Created; for every other status,
other 2xx codes included, it fails with an error message that carries the raw
response body. -/
theorem c6_upload_created_iff_201 (assetName : String) (content : List Nat) (size : Int)
    (resp : GoResponse) :
    ((∃ a, uploadReleaseAsset (.ok ()) (.ok resp) assetName content size = .ok a) ↔
      resp.statusCode = 201) ∧
    (resp.statusCode ≠ 201 →
      ∃ p, uploadReleaseAsset (.ok ()) (.ok resp) assetName content size
        = .error (p ++ resp.body)) := by
  constructor
  · constructor
    · rintro ⟨a, ha⟩
      by_cases h : resp.statusCode = 201
      · exact h
      · simp [uploadReleaseAsset, h] at ha
    · intro h
      exact ⟨⟨assetName, content, size⟩, by simp [uploadReleaseAsset, h]⟩
  · intro h
    refine ⟨"upload failed with status " ++ toString resp.statusCode ++ " "
      ++ statusText resp.statusCode ++ ": ", ?_⟩
    simp [uploadReleaseAsset, h]

/-- Witness for C6: a 201 response creates the asset; a 422 response (a
non-201 status) fails with the body "oops" at the end of the error. -/
theorem c6_upload_created_iff_201_witness :
    (∃ a, uploadReleaseAsset (.ok ()) (.ok ⟨201, "yay"⟩) "a.zip" [1] 1 = .ok a) ∧
    (∃ p, uploadReleaseAsset (.ok ()) (.ok ⟨422, "oops"⟩) "a.zip" [1] 1 = .error (p ++ "oops")) :=
  ⟨(c6_upload_created_iff_201 "a.zip" [1] 1 ⟨201, "yay"⟩).1.mpr rfl,
   (c6_upload_created_iff_201 "a.zip" [1] 1 ⟨422, "oops"⟩).2 (by decide)⟩

/-- The insertion fold of `addRepos` leaves every name it does not insert
unchanged. -/
theorem addRepos_fold_preserves (repos : List GhRepo) (m : String → Option GhRepo) (n : String)
    (hn : n ∉ repos.map getName) :
    (repos.foldl (fun m r => fun x => if x = getName r then some r else m x) m) n = m n := by
  induction repos generalizing m with
  | nil => rfl
  | cons r rs ih =>
    simp only [List.map_cons, List.mem_cons, not_or] at hn
    rw [List.foldl_cons, ih _ hn.2]
    simp [hn.1]

/-- `addRepos` preserves every cached record except those overwritten by a
same-owner record of the same name. -/
theorem addRepos_preserves (c : GhCache) (owner : String) (repos : List GhRepo)
    (o n : String) (g : GhRepo) (hg : getRepo c o n = some g)
    (hfresh : o = owner → n ∉ repos.map getName) :
    getRepo (addRepos c owner repos) o n = some g := by
  by_cases hlen : repos.length = 0
  · simpa [addRepos, hlen] using hg
  · by_cases ho : o = owner
    · subst ho
      cases hco : c o with
      | none => simp [getRepo, hco] at hg
      | some m =>
        have hg' : m n = some g := by simpa [getRepo, hco] using hg
        simp only [addRepos, if_neg hlen, getRepo, hco, Option.getD_some, if_pos rfl,
          eq_self_iff_true, if_true]
        rw [addRepos_fold_preserves repos m n (hfresh rfl)]
        exact hg'
    · have hne : ¬(repos = []) := fun h => hlen (by simp [h])
      simpa [addRepos, if_neg hne, getRepo, if_neg ho] using hg

/-- C7: a page-listing failure mid-walk surfaces at once with the cache
exactly as accumulated (no rollback), each fetched page is merged into the
cache before the next page is requested — for the org walk under the listed
org, for the user walk under the `org` identifier the source passes — and a
merge disturbs no cached record other than same-key overwrites, so records
from earlier pages stay available. -/
theorem c7_prefetch_surfaces_error_keeps_pages :
    (∀ (org : String) (fetch : String → Nat → Except String ListPage)
        (fuel page : Nat) (c : GhCache) (e : String), 0 < page →
      fetch org page = .error e →
      prefetchOrgGo org fetch (fuel + 1) page c = some (.error e, c)) ∧
    (∀ (org : String) (fetch : String → Nat → Except String ListPage)
        (fuel page : Nat) (c : GhCache) (repos : List GhRepo) (next : Nat), 0 < page →
      fetch org page = .ok (repos, next) →
      prefetchOrgGo org fetch (fuel + 1) page c
        = prefetchOrgGo org fetch fuel next (addRepos c org repos)) ∧
    (∀ (orgOuter user : String) (fetch : String → Nat → Except String ListPage)
        (fuel page : Nat) (c : GhCache) (e : String), 0 < page →
      fetch user page = .error e →
      prefetchUserGo orgOuter user fetch (fuel + 1) page c = some (.error e, c)) ∧
    (∀ (orgOuter user : String) (fetch : String → Nat → Except String ListPage)
        (fuel page : Nat) (c : GhCache) (repos : List GhRepo) (next : Nat), 0 < page →
      fetch user page = .ok (repos, next) →
      prefetchUserGo orgOuter user fetch (fuel + 1) page c
        = prefetchUserGo orgOuter user fetch fuel next (addRepos c orgOuter repos)) ∧
    (∀ (c : GhCache) (owner : String) (repos : List GhRepo) (o n : String) (g : GhRepo),
      getRepo c o n = some g → (o = owner → n ∉ repos.map getName) →
      getRepo (addRepos c owner repos) o n = some g) := by
  refine ⟨?_, ?_, ?_, ?_, addRepos_preserves⟩
  · intro org fetch fuel page c e hpage hfetch
    simp [prefetchOrgGo, hpage, hfetch]
  · intro org fetch fuel page c repos next hpage hfetch
    simp [prefetchOrgGo, hpage, hfetch]
  · intro orgOuter user fetch fuel page c e hpage hfetch
    simp [prefetchUserGo, hpage, hfetch]
  · intro orgOuter user fetch fuel page c repos next hpage hfetch
    simp [prefetchUserGo, hpage, hfetch]

/-- Witness for C7: with a first page holding "r1" and a failing second page,
the org walk returns the paging error with the first page still merged, and a
later merge of a record named "r2" leaves the cached "r1" lookup intact. -/
theorem c7_prefetch_surfaces_error_keeps_pages_witness :
    prefetchOrgGo "beta" fetchBoom 2 1 emptyCache
      = some (.error "boom", addRepos emptyCache "beta" [repoAlpha]) ∧
    getRepo (addRepos (addRepos emptyCache "beta" [repoAlpha]) "beta" [repoBeta]) "beta" "r1"
      = some repoAlpha := by
  have h := c7_prefetch_surfaces_error_keeps_pages
  constructor
  · rw [h.2.1 "beta" fetchBoom 1 1 emptyCache [repoAlpha] 2 (by decide) rfl]
    exact h.1 "beta" fetchBoom 0 2 (addRepos emptyCache "beta" [repoAlpha]) "boom"
      (by decide) rfl
  · exact h.2.2.2.2 (addRepos emptyCache "beta" [repoAlpha]) "beta" [repoBeta]
      "beta" "r1" repoAlpha (by decide) (by decide)

/-- When the remote-tracking step yields no branch, `getDefaultBranch`
continues with the HEAD check and the probes. -/
theorem getDefaultBranch_of_fellThrough (r : GitRepoRefs) (hf : remoteStepFellThrough r) :
    getDefaultBranch r = defaultBranchAfterRemote r := by
  unfold getDefaultBranch
  rcases hf with h | ⟨ref, href, hcut⟩
  · simp [h]
  · simp [href, hcut]

/-- C4: default-branch resolution is strict first-success-wins: a resolved
`origin/HEAD` under the remote namespace returns that branch's local
reference name regardless of local branches; with that step fallen through,
a missing HEAD yields "main"; with HEAD present, "main" then "master" are
probed in order and the first existing one returned; with neither existing
resolution fails with the no-default-branch error; and any lookup or probe
error other than "reference not found" is returned as fatal. -/
theorem c4_default_branch_first_success_order (r : GitRepoRefs) :
    (∀ ref short, r.reference originHeadRef = .ok ref →
        cutPre (refString ref) originNs = some short →
        getDefaultBranch r = .ok (branchRefName short)) ∧
    (∀ e, r.reference originHeadRef = .error e → e ≠ .refNotFound →
        getDefaultBranch r = .error e) ∧
    (remoteStepFellThrough r → r.head = .error .refNotFound →
        getDefaultBranch r = .ok mainRef) ∧
    (∀ e, remoteStepFellThrough r → r.head = .error e → e ≠ .refNotFound →
        getDefaultBranch r = .error e) ∧
    (∀ h ref, remoteStepFellThrough r → r.head = .ok h →
        r.reference mainRef = .ok ref → getDefaultBranch r = .ok mainRef) ∧
    (∀ h ref, remoteStepFellThrough r → r.head = .ok h →
        r.reference mainRef = .error .refNotFound → r.reference masterRef = .ok ref →
        getDefaultBranch r = .ok masterRef) ∧
    (∀ h, remoteStepFellThrough r → r.head = .ok h →
        r.reference mainRef = .error .refNotFound →
        r.reference masterRef = .error .refNotFound →
        getDefaultBranch r = .error .noDefaultBranch) ∧
    (∀ h e, remoteStepFellThrough r → r.head = .ok h →
        r.reference mainRef = .error e → e ≠ .refNotFound →
        getDefaultBranch r = .error e) ∧
    (∀ h e, remoteStepFellThrough r → r.head = .ok h →
        r.reference mainRef = .error .refNotFound → r.reference masterRef = .error e →
        e ≠ .refNotFound → getDefaultBranch r = .error e) := by
  refine ⟨?_, ?_, ?_, ?_, ?_, ?_, ?_, ?_, ?_⟩
  · intro ref short href hcut
    simp [getDefaultBranch, href, hcut]
  · intro e href hne
    simp [getDefaultBranch, href, hne]
  · intro hf hhead
    rw [getDefaultBranch_of_fellThrough r hf]
    simp [defaultBranchAfterRemote, hhead]
  · intro e hf hhead hne
    rw [getDefaultBranch_of_fellThrough r hf]
    simp [defaultBranchAfterRemote, hhead, hne]
  · intro h ref hf hhead hmain
    rw [getDefaultBranch_of_fellThrough r hf]
    simp [defaultBranchAfterRemote, hhead, probeBranches, hmain]
  · intro h ref hf hhead hmain hmaster
    rw [getDefaultBranch_of_fellThrough r hf]
    simp [defaultBranchAfterRemote, hhead, probeBranches, hmain, hmaster]
  · intro h hf hhead hmain hmaster
    rw [getDefaultBranch_of_fellThrough r hf]
    simp [defaultBranchAfterRemote, hhead, probeBranches, hmain, hmaster]
  · intro h e hf hhead hmain hne
    rw [getDefaultBranch_of_fellThrough r hf]
    simp [defaultBranchAfterRemote, hhead, probeBranches, hmain, hne]
  · intro h e hf hhead hmain hmaster hne
    rw [getDefaultBranch_of_fellThrough r hf]
    simp [defaultBranchAfterRemote, hhead, probeBranches, hmain, hmaster, hne]

/-- Witness for C4: a repository whose resolved `origin/HEAD` sits at
`refs/remotes/origin/dev` resolves to the local branch reference
`refs/heads/dev`, even though HEAD and other references exist. -/
theorem c4_default_branch_first_success_order_witness :
    getDefaultBranch refsRemoteDev = .ok (branchRefName "dev") :=
  (c4_default_branch_first_success_order refsRemoteDev).1
    ⟨.hashRef, "refs/remotes/origin/dev", ""⟩ "dev" rfl (by decide)

/-- Every exit of `uploadAfterZip` removes the temp file: the deferred
`os.Remove` is registered on all these paths. -/
theorem uploadAfterZip_tmpExists (hash : List Nat → List Nat) (binName : String)
    (zipBytes : List Nat) (o : PublishOracle) :
    (uploadAfterZip hash binName zipBytes o).tmpExists = false := by
  unfold uploadAfterZip
  cases o.openTmpErr with
  | some e => rfl
  | none =>
    cases o.statErr with
    | some e => rfl
    | none =>
      cases uploadReleaseAsset o.newReq1 o.doResp1 (binName ++ ".zip") zipBytes
          (zipBytes.length : Int) with
      | error e => rfl
      | ok zipAsset =>
        cases uploadReleaseAsset o.newReq2 o.doResp2 (binName ++ "_checksum_sha256.txt")
            (strBytes (hexEncode (hash zipBytes))) lenChecksum with
        | error e => rfl
        | ok csAsset => rfl

/-- C5 counterexample: a publish run whose `io.Copy` into the zip entry fails
aborts inside the archiving step and leaves the temporary archive file on
disk, refuting removal on every exit path. -/
theorem c5_counterexample_zip_failure_leaks_tmp :
    (UploadReleaseBinary hashZeros zipId "myrepo" "mybin" "" [1, 2, 3] leakOracle).result
      = .error "zipping binary: writing to zip: disk full" ∧
    (UploadReleaseBinary hashZeros zipId "myrepo" "mybin" "" [1, 2, 3] leakOracle).tmpExists
      = true :=
  ⟨rfl, rfl⟩

/-- C5 (amended): the temporary archive file is removed on every exit path of
the publish operation except when the archiving step itself fails after
`os.CreateTemp` succeeded — precisely then the file is left behind. -/
theorem c5_tmp_removed_except_zip_internal_failure (hash : List Nat → List Nat)
    (zipEnc : String → List Nat → List Nat) (repoName binName suffix : String)
    (binBytes : List Nat) (o : PublishOracle) :
    (UploadReleaseBinary hash zipEnc repoName binName suffix binBytes o).tmpExists = true ↔
      (o.openErr = none ∧ o.zipO.createTempErr = none ∧
        (o.zipO.fileInfoHeaderErr ≠ none ∨ o.zipO.createHeaderErr ≠ none ∨
          o.zipO.copyErr ≠ none ∨ o.zipO.closeErr ≠ none)) := by
  obtain ⟨oe, ⟨z1, z2, z3, z4, z5⟩, ot, os, n1, d1, n2, d2⟩ := o
  cases oe <;> cases z1 <;> cases z2 <;> cases z3 <;> cases z4 <;> cases z5 <;>
    simp [UploadReleaseBinary, zipBinary, uploadAfterZip_tmpExists]

/-- A successful `uploadReleaseAsset` returns the asset with exactly the
requested name, the streamed bytes, and the declared size. -/
theorem uploadReleaseAsset_ok_shape (nr : Except String Unit) (dr : Except String GoResponse)
    (nm : String) (ct : List Nat) (sz : Int) (a : AssetUpload)
    (h : uploadReleaseAsset nr dr nm ct sz = .ok a) : a = ⟨nm, ct, sz⟩ := by
  unfold uploadReleaseAsset at h
  cases nr with
  | error e => cases h
  | ok u =>
    cases dr with
    | error e => cases h
    | ok resp =>
      by_cases hs : resp.statusCode = 201
      · simp [hs] at h
        exact h.symm
      · simp [hs] at h

/-- A successful `zipBinary` produces exactly the encoder's bytes for the
entry `<repo-name><suffix>`. -/
theorem zipBinary_ok_shape (o : ZipOracle) (repoName suffix : String) (binBytes : List Nat)
    (zipEnc : String → List Nat → List Nat) (bs : List Nat)
    (h : (zipBinary o repoName suffix binBytes zipEnc).res = .ok bs) :
    bs = zipEnc (repoName ++ suffix) binBytes := by
  obtain ⟨z1, z2, z3, z4, z5⟩ := o
  cases z1 <;> cases z2 <;> cases z3 <;> cases z4 <;> cases z5 <;>
      simp [zipBinary] at h <;> exact h.symm

/-- `hexChars` yields two characters per byte. -/
theorem hexChars_length (bs : List Nat) : (hexChars bs).length = 2 * bs.length := by
  induction bs with
  | nil => rfl
  | cons b t ih =>
    simp [hexChars, ih]
    ring

/-- `hexEncode` yields two characters per byte. -/
theorem hexEncode_length (bs : List Nat) : (hexEncode bs).length = 2 * bs.length :=
  hexChars_length bs

/-- Hex digits of nibbles are lowercase hexadecimal characters. -/
theorem hexDigitChar_lower (n : Nat) (hn : n < 16) :
    isLowerHexChar (hexDigitChar n) = true := by
  interval_cases n <;> decide

/-- All characters emitted for bytes are lowercase hexadecimal. -/
theorem hexChars_all_lower (bs : List Nat) (hb : ∀ b ∈ bs, b < 256) :
    (hexChars bs).all isLowerHexChar = true := by
  induction bs with
  | nil => rfl
  | cons b t ih =>
    have hb0 : b < 256 := hb b (List.mem_cons_self b t)
    have h1 : b / 16 < 16 := (Nat.div_lt_iff_lt_mul (by norm_num)).mpr (by omega)
    have h2 : b % 16 < 16 := Nat.mod_lt _ (by norm_num)
    simp [hexChars, hexDigitChar_lower _ h1, hexDigitChar_lower _ h2,
      ih (fun x hx => hb x (List.mem_cons_of_mem _ hx))]

/-- C1: on every successful publish run, exactly two assets are created: the
zip asset carrying the encoder's archive bytes for entry
`<repo-name><suffix>`, and a checksum asset named
`<binary-name>_checksum_sha256.txt` whose body is the hex encoding of the
digest of the uploaded zip asset's bytes (not of the raw binary), consisting
of exactly 64 lowercase hexadecimal characters, declared with size 64. -/
theorem c1_checksum_of_uploaded_archive (hash : List Nat → List Nat)
    (zipEnc : String → List Nat → List Nat) (repoName binName suffix : String)
    (binBytes : List Nat) (o : PublishOracle)
    (hlen : ∀ bs, (hash bs).length = 32)
    (hbyte : ∀ bs b, b ∈ hash bs → b < 256)
    (hok : (UploadReleaseBinary hash zipEnc repoName binName suffix binBytes o).result
      = .ok ()) :
    ∃ zipAsset csAsset,
      (UploadReleaseBinary hash zipEnc repoName binName suffix binBytes o).uploads
        = [zipAsset, csAsset] ∧
      zipAsset.name = binName ++ ".zip" ∧
      zipAsset.content = zipEnc (repoName ++ suffix) binBytes ∧
      csAsset.name = binName ++ "_checksum_sha256.txt" ∧
      csAsset.content = strBytes (hexEncode (hash zipAsset.content)) ∧
      csAsset.declaredSize = 64 ∧
      (hexEncode (hash zipAsset.content)).length = 64 ∧
      (hexEncode (hash zipAsset.content)).toList.all isLowerHexChar = true := by
  unfold UploadReleaseBinary at hok ⊢
  cases hoe : o.openErr with
  | some e => simp [hoe] at hok
  | none =>
    simp only [hoe] at hok ⊢
    cases hz : zipBinary o.zipO repoName suffix binBytes zipEnc with
    | mk zres ztmp =>
      cases zres with
      | error e => simp [hz] at hok
      | ok zipBytes =>
        simp only [hz] at hok ⊢
        have hzb : zipBytes = zipEnc (repoName ++ suffix) binBytes :=
          zipBinary_ok_shape o.zipO repoName suffix binBytes zipEnc zipBytes (by rw [hz])
        unfold uploadAfterZip at hok ⊢
        cases hot : o.openTmpErr with
        | some e => simp [hot] at hok
        | none =>
          simp only [hot] at hok ⊢
          cases hos : o.statErr with
          | some e => simp [hos] at hok
          | none =>
            simp only [hos] at hok ⊢
            cases hu1 : uploadReleaseAsset o.newReq1 o.doResp1 (binName ++ ".zip") zipBytes
                (zipBytes.length : Int) with
            | error e => simp [hu1] at hok
            | ok zipAsset =>
              simp only [hu1] at hok ⊢
              cases hu2 : uploadReleaseAsset o.newReq2 o.doResp2
                  (binName ++ "_checksum_sha256.txt") (strBytes (hexEncode (hash zipBytes)))
                  lenChecksum with
              | error e => simp [hu2] at hok
              | ok csAsset =>
                simp only [hu2]
                have ha : zipAsset = ⟨binName ++ ".zip", zipBytes, (zipBytes.length : Int)⟩ :=
                  uploadReleaseAsset_ok_shape _ _ _ _ _ _ hu1
                have hcs : csAsset = ⟨binName ++ "_checksum_sha256.txt",
                    strBytes (hexEncode (hash zipBytes)), lenChecksum⟩ :=
                  uploadReleaseAsset_ok_shape _ _ _ _ _ _ hu2
                subst ha hcs
                refine ⟨_, _, rfl, rfl, ?_, rfl, rfl, rfl, ?_, ?_⟩
                · exact hzb
                · rw [hexEncode_length, hlen]
                · exact hexChars_all_lower (hash zipBytes) (hbyte zipBytes)

/-- Witness for C1: a concrete successful publish run (identity encoder,
all-zero digest) creating the zip and checksum assets with the stated
relationship. -/
theorem c1_checksum_of_uploaded_archive_witness :
    ∃ zipAsset csAsset,
      (UploadReleaseBinary hashZeros zipId "myrepo" "mybin" ".exe" [7] okOracle).uploads
        = [zipAsset, csAsset] ∧
      zipAsset.name = "mybin" ++ ".zip" ∧
      zipAsset.content = zipId ("myrepo" ++ ".exe") [7] ∧
      csAsset.name = "mybin" ++ "_checksum_sha256.txt" ∧
      csAsset.content = strBytes (hexEncode (hashZeros zipAsset.content)) ∧
      csAsset.declaredSize = 64 ∧
      (hexEncode (hashZeros zipAsset.content)).length = 64 ∧
      (hexEncode (hashZeros zipAsset.content)).toList.all isLowerHexChar = true :=
  c1_checksum_of_uploaded_archive hashZeros zipId "myrepo" "mybin" ".exe" [7] okOracle
    (fun _ => by simp [hashZeros])
    (fun bs b hb => by simp [hashZeros] at hb; omega)
    rfl

end Gorepo
